import Mathlib

/-!
Verification of the line-segmentation, style-resolution, re-render
suppression and label-axis layout logic of `LineChart.tsx`
(react-timeseries-charts).

Timestamps and numeric values are modelled as rationals; JavaScript
runtime values that can appear in a series column are modelled by the
`JsVal` inductive.  External collaborators that live outside the
verified source (the pond `TimeSeries` container, the d3 scale/curve
and formatting functions, the `Styler` object and the default style
table from `./style`) are modelled opaquely: by reference identifiers,
by their rendered string, or as explicit parameters.
-/

set_option autoImplicit false

/-- A JavaScript value that can be stored in a time-series column or
returned by `event.get(column)`.  `undefinedV` models `undefined` (the
result of reading a missing column). -/
inductive JsVal where
  | null
  | undefinedV
  | nan
  | posInf
  | negInf
  | num (y : ℚ)
  | str (s : String)
deriving DecidableEq

namespace Lodash

/-- lodash `_.isNull`: true exactly on `null`. -/
def isNull : JsVal → Bool
  | .null => true
  | _ => false

/-- lodash `_.isNaN`: true exactly on the number `NaN`. -/
def isNaN : JsVal → Bool
  | .nan => true
  | _ => false

/-- lodash `_.isFinite`: true exactly on finite numbers (not on `null`,
`undefined`, `NaN`, `±Infinity`, or non-number values). -/
def isFinite : JsVal → Bool
  | .num _ => true
  | _ => false

end Lodash

/-- The bad-point test computed in `LineChart.renderLine`:
`_.isNull(value) || _.isNaN(value) || !_.isFinite(value)`. -/
def badPoint (v : JsVal) : Bool :=
  Lodash.isNull v || Lodash.isNaN v || !(Lodash.isFinite v)

/-- The numeric content of a `JsVal`; only used behind a `badPoint`
guard, where the value is guaranteed to be a finite number. -/
def JsVal.asNum : JsVal → ℚ
  | .num y => y
  | _ => 0

/-- A renderable point `{x: timestamp, y: value}` (the `Point` type of
`LineChart.tsx`); the timestamp is a millisecond count. -/
structure Point where
  x : ℚ
  y : ℚ
deriving DecidableEq

/-- The `PointData` type of `LineChart.tsx`: an ordered point list. -/
abbrev PointData := List Point

/-- One event of a pond `TimeSeries`: a begin/end time interval (as
`getTime()` millisecond values) and a mapping from column names to
values.  Reading a missing column yields `undefined`. -/
structure Event where
  beginT : ℚ
  endT : ℚ
  fields : List (String × JsVal)
deriving DecidableEq

/-- Column access `d.get(column)`: the column's value, `undefined` when
the column is absent. -/
def Event.get (e : Event) (column : String) : JsVal :=
  match e.fields.lookup column with
  | some v => v
  | none => .undefinedV

/-- The interval midpoint used as the point's x coordinate:
`d.begin().getTime() + (d.end().getTime() - d.begin().getTime()) / 2`. -/
def Event.midpoint (e : Event) : ℚ :=
  e.beginT + (e.endT - e.beginT) / 2

/-- A pond `TimeSeries`, reduced to the interface `LineChart` consumes:
the ordered event list of its collection
(`series.collection().eventList()`). -/
structure TimeSeries where
  events : List Event
deriving DecidableEq

/-- The series size `series.size()`. -/
def TimeSeries.size (s : TimeSeries) : Nat :=
  s.events.length

/-- pond `TimeSeries.is`: structural (deep value) equality. -/
def TimeSeries.is (a b : TimeSeries) : Bool :=
  decide (a = b)

namespace LineChart

/-- The loop body of `renderLine` with `breakLine = true`, made explicit
as a recursion over the event list.  `pathLines` is the accumulator of
emitted segments and `currentPoints` the open segment (`null` modelled
as `none`); a closed segment is emitted only when its length exceeds 1,
exactly as in the source. -/
def segmentsBreakGo (column : String) :
    List Event → List PointData → Option PointData → List PointData
  | [], pathLines, currentPoints =>
    match currentPoints with
    | some ps => if 1 < ps.length then pathLines ++ [ps] else pathLines
    | none => pathLines
  | e :: rest, pathLines, currentPoints =>
    let timestamp := e.beginT + (e.endT - e.beginT) / 2
    let value := e.get column
    if badPoint value then
      match currentPoints with
      | some ps =>
        segmentsBreakGo column rest
          (if 1 < ps.length then pathLines ++ [ps] else pathLines) none
      | none => segmentsBreakGo column rest pathLines none
    else
      segmentsBreakGo column rest pathLines
        (some ((currentPoints.getD []) ++ [⟨timestamp, value.asNum⟩]))

/-- The segments `renderLine` draws for one column when
`breakLine = true`. -/
def segmentsBreakLine (events : List Event) (column : String) : List PointData :=
  segmentsBreakGo column events [] none

/-- The single segment `renderLine` draws for one column when
`breakLine = false`: bad points are skipped, all good points are
collected into `cleanedPoints`, and that list is always emitted. -/
def segmentsNoBreakLine (events : List Event) (column : String) : List PointData :=
  [events.foldl
    (fun cleanedPoints e =>
      let timestamp := e.beginT + (e.endT - e.beginT) / 2
      let value := e.get column
      if badPoint value then cleanedPoints
      else cleanedPoints ++ [⟨timestamp, value.asNum⟩])
    []]

/-- The list of point segments that `LineChart.renderLine` converts into
paths (in emission order), for one column. -/
def lineSegments (breakLine : Bool) (series : TimeSeries) (column : String) :
    List PointData :=
  if breakLine then segmentsBreakLine series.events column
  else segmentsNoBreakLine series.events column

end LineChart

/-- Specification-side view of one event: `some point` when the event
holds a good (finite numeric) value for the column, `none` when it is a
bad point. -/
def goodPoint? (column : String) (e : Event) : Option Point :=
  if badPoint (e.get column) then none
  else some ⟨e.midpoint, (e.get column).asNum⟩

/-- Specification-side segmentation: split a list at its `none` entries
into the (possibly empty) maximal runs of consecutive `some` points.
The result is always non-empty; bad points act as separators. -/
def chunksAtNone : List (Option Point) → List (List Point)
  | [] => [[]]
  | none :: rest => [] :: chunksAtNone rest
  | some p :: rest =>
    match chunksAtNone rest with
    | c :: cs => (p :: c) :: cs
    | [] => [[p]]

/-- Prepend an open run onto the head chunk of a chunk list. -/
def prependCur : Option PointData → List (List Point) → List (List Point)
  | none, cs => cs
  | some ps, [] => [ps]
  | some ps, c :: cs => (ps ++ c) :: cs

/-- The series used by the spec's worked example: values `1, 2, bad, 4, 5`
on column `"value"` (the bad value is `null`), each event a zero-width
interval at times `0..4`. -/
def exampleSeries : TimeSeries :=
  ⟨[⟨0, 0, [("value", JsVal.num 1)]⟩,
    ⟨1, 1, [("value", JsVal.num 2)]⟩,
    ⟨2, 2, [("value", JsVal.null)]⟩,
    ⟨3, 3, [("value", JsVal.num 4)]⟩,
    ⟨4, 4, [("value", JsVal.num 5)]⟩]⟩

/-- A concrete two-event series with no bad values, witnessing the
hypotheses of `breakLine_noBadValues_equiv`. -/
def twoGoodSeries : TimeSeries :=
  ⟨[⟨0, 0, [("value", JsVal.num 1)]⟩, ⟨1, 1, [("value", JsVal.num 2)]⟩]⟩

/-- A primitive JavaScript value appearing as a style-attribute value or
a label value: a string or a number. -/
inductive JsPrim where
  | str (s : String)
  | num (q : ℚ)
deriving DecidableEq

/-- A flat style-attribute bundle (a CSS-properties object). -/
abbrev JsAttrs := List (String × JsPrim)

/-- The lodash call `_.merge(true, d, s)` as used in `pathStyle`: the
destination is the boolean coerced to a fresh wrapper object, so neither
`d` nor `s` is mutated; the resulting properties are `d`'s attributes
overridden by `s`, followed by `s`'s attributes that are new.  Only flat
bundles are ever merged here. -/
def mergeAttrs (d s : JsAttrs) : JsAttrs :=
  d.map (fun p => match s.lookup p.1 with | some v => (p.1, v) | none => p) ++
    s.filter (fun p => (d.lookup p.1).isNone)

/-- Property assignment `attrs[key] = v`: overwrite in place when the
key exists, append otherwise. -/
def setAttr (attrs : JsAttrs) (key : String) (v : JsPrim) : JsAttrs :=
  if (attrs.lookup key).isSome then
    attrs.map (fun p => if p.1 = key then (key, v) else p)
  else attrs ++ [(key, v)]

/-- The four named state-style bundles of a channel (each optionally
present in a user-provided style). -/
structure StateStyles where
  normal : Option JsAttrs
  highlighted : Option JsAttrs
  selected : Option JsAttrs
  muted : Option JsAttrs
deriving DecidableEq

/-- The style state a column resolves to. -/
inductive StyleState where
  | normal
  | highlighted
  | selected
  | muted
deriving DecidableEq

/-- Bundle selection by state. -/
def StateStyles.get (ss : StateStyles) : StyleState → Option JsAttrs
  | .normal => ss.normal
  | .highlighted => ss.highlighted
  | .selected => ss.selected
  | .muted => ss.muted

/-- A per-column channel style (`LineChartChannelStyle`): it may carry
element-keyed sub-bundles (such as `line`), and is otherwise treated as
a state-style bundle itself — this is the shape probed by
`styleMap[element] ? styleMap[element] : styleMap`. -/
structure LineChartChannelStyle where
  elements : List (String × StateStyles)
  asStates : StateStyles
deriving DecidableEq

/-- The polymorphic `style` prop: a `Styler` resolver object (modelled
by the per-column map its `lineChartStyle()` method returns — `Styler`
itself lives in `./styler`, outside the verified source), a static
per-column mapping, or a column-to-style function (which may return
`undefined`, modelled as `none`).  Note lodash `_.isObject` also holds
for functions, so at runtime a function-valued style is probed like a
mapping and resolves to `undefined` for ordinary column names; under
either reading a function that returns `undefined` for the requested
column resolves to `undefined`. -/
inductive StyleSource where
  | styler (lineChartStyleMap : List (String × LineChartChannelStyle))
  | mapping (m : List (String × LineChartChannelStyle))
  | fn (f : String → Option LineChartChannelStyle)

/-- JavaScript truthiness of an optional string prop: `undefined` and
the empty string are falsy, every other string is truthy.  This is the
test performed by `if (this.props.selection)` and by the conjunctions
computing `isHighlighted` / `isSelected`. -/
def truthy : Option String → Bool
  | none => false
  | some s => !(s == "")

namespace LineChart

/-- Method `providedPathStyleMap`: fetch the channel style for `column`
from the polymorphic style prop.  An absent style prop, a mapping with
no entry for `column`, or a style function returning `undefined` all
yield `undefined` (`none`). -/
def providedPathStyleMap (style : Option StyleSource) (column : String) :
    Option LineChartChannelStyle :=
  match style with
  | none => none
  | some (.styler m) => m.lookup column
  | some (.mapping m) => m.lookup column
  | some (.fn f) => f column

/-- The sub-bundle selection `styleMap[element] ? styleMap[element] :
styleMap` performed by `pathStyle`. -/
def subStyle (styleMap : LineChartChannelStyle) (element : String) : StateStyles :=
  match styleMap.elements.lookup element with
  | some b => b
  | none => styleMap.asStates

/-- The state chosen by the branch structure of `pathStyle`:
`isSelected` / `isHighlighted` are the truthiness-guarded equality tests
of the source, and the outer branch is taken on the truthiness of the
`selection` prop. -/
def styleState (selection highlight : Option String) (column : String) :
    StyleState :=
  let isHighlighted := truthy highlight && decide (highlight = some column)
  let isSelected := truthy selection && decide (selection = some column)
  if truthy selection then
    if isSelected then .selected
    else if isHighlighted then .highlighted
    else .muted
  else if isHighlighted then .highlighted
  else .normal

/-- Merge of the built-in default bundle with the user-provided bundle
for one state: `_.merge(true, d.X, s.X ? s.X : {})`. -/
def pickedBundle (d s : StateStyles) (st : StyleState) : JsAttrs :=
  mergeAttrs ((d.get st).getD []) ((s.get st).getD [])

/-- Method `pathStyle`.  The parameter `d` is `defaultStyle.line`, the
channel default imported from `./style` (that module is outside the
verified source, so the default is passed explicitly; every theorem
below holds for an arbitrary default).  When the provided style resolves
to `undefined` for the column, the attribute access `styleMap[element]`
throws a TypeError, modelled as `Except.error ()`; otherwise the bundle
of the resolved state is merged onto the default and `pointerEvents` is
forced to `"none"`. -/
def pathStyle (d : StateStyles) (style : Option StyleSource)
    (selection highlight : Option String) (element column : String) :
    Except Unit JsAttrs :=
  match providedPathStyleMap style column with
  | none => .error ()
  | some styleMap =>
    .ok (setAttr
      (pickedBundle d (subStyle styleMap element)
        (styleState selection highlight column))
      "pointerEvents" (.str "none"))

end LineChart

/-- A sample state-style table (used only to instantiate witnesses). -/
def sampleStates : StateStyles :=
  ⟨some [("stroke", JsPrim.str "steelblue")],
    some [("stroke", JsPrim.str "lightblue")],
    some [("stroke", JsPrim.str "blue")],
    some [("stroke", JsPrim.str "grey")]⟩

/-- A sample channel style with a `line` sub-bundle (for witnesses). -/
def sampleChannel : LineChartChannelStyle :=
  ⟨[("line", sampleStates)], sampleStates⟩

/-- The enumerated curve-interpolation modes.  Modelled from the spec:
the `CurveInterpolation` enumeration lives in `./types`, outside the
verified source; the spec lists linear, basis, cardinal, step variants,
monotone, natural and catmull-rom modes. -/
inductive CurveInterpolation where
  | curveLinear
  | curveBasis
  | curveCardinal
  | curveStep
  | curveStepAfter
  | curveStepBefore
  | curveMonotoneX
  | curveNatural
  | curveCatmullRom
deriving DecidableEq

/-- An opaque time-scale function, modelled by a JS reference identity
(`ref`) together with its rendered string. -/
structure TimeScale where
  ref : Nat
  asString : String
deriving DecidableEq

/-- Modelled from the spec: `scaleAsString` from `./util` (outside the
verified source) renders a scale function to a string, and the
re-render check compares time scales by that string; here it projects
the stored rendering. -/
def scaleAsString (t : TimeScale) : String :=
  t.asString

/-- The `columns` prop: a JS array, carrying its reference identity
(what the re-render check's `!==` compares) and its contents (what
rendering iterates). -/
structure ColumnsProp where
  ref : Nat
  names : List String

/-- The props record of `LineChart`.  Opaque function props (`yScale`
and the two callbacks) are modelled by reference identifiers; `none`
models an absent optional prop. -/
structure LineChartProps where
  width : ℚ
  series : TimeSeries
  timeScale : TimeScale
  yScale : Nat
  interpolation : CurveInterpolation
  highlight : Option String
  selection : Option String
  columns : ColumnsProp
  style : Option StyleSource
  breakLine : Bool
  visible : Bool
  axis : String
  onSelectionChange : Option Nat
  onHighlightChange : Option Nat

namespace LineChart

/-- Method `shouldComponentUpdate`: compares pixel width, series (size
first, then pond structural equality), time scale (as strings), y scale
(by identity), interpolation, highlight, selection and columns (by
identity), and requests a re-render when any of them changed. -/
def shouldComponentUpdate (props nextProps : LineChartProps) : Bool :=
  let widthChanged := decide (props.width ≠ nextProps.width)
  let timeScaleChanged :=
    decide (scaleAsString props.timeScale ≠ scaleAsString nextProps.timeScale)
  let yAxisScaleChanged := decide (props.yScale ≠ nextProps.yScale)
  let interpolationChanged := decide (props.interpolation ≠ nextProps.interpolation)
  let highlightChanged := decide (props.highlight ≠ nextProps.highlight)
  let selectionChanged := decide (props.selection ≠ nextProps.selection)
  let columnsChanged := decide (props.columns.ref ≠ nextProps.columns.ref)
  let seriesChanged :=
    if props.series.size ≠ nextProps.series.size then true
    else !(TimeSeries.is props.series nextProps.series)
  widthChanged || seriesChanged || timeScaleChanged || yAxisScaleChanged ||
    interpolationChanged || highlightChanged || selectionChanged || columnsChanged

end LineChart

/-- The inputs that determine the path string generated by d3's
`line()` call in `renderPath`: the curve, the two scale functions and
the point data.  The d3 path generator is an external deterministic
function of exactly these, so the path is carried symbolically. -/
structure PathSpec where
  interpolation : CurveInterpolation
  timeScale : TimeScale
  yScale : Nat
  data : PointData
deriving DecidableEq

/-- A `{label, value}` pair handed to the external `ValueList`
collaborator. -/
structure LabelValue where
  label : Option String
  value : Option JsPrim
deriving DecidableEq

/-- Text content of a text node: a raw string, or the result of the
external d3 `format(spec)(value)` call, carried symbolically. -/
inductive TextContent where
  | raw (s : String)
  | formatted (spec : String) (value : ℚ)
deriving DecidableEq

/-- The vector-graphics node tree produced by the two components.  A
`hitPath` is the invisible wide stroke that carries the pointer-event
handlers; it records the column and the callback references the
handlers close over. -/
inductive SvgNode where
  | g (key : Option String) (children : List SvgNode)
  | translateG (dx dy : ℚ) (children : List SvgNode)
  | path (spec : PathSpec) (style : JsAttrs)
  | hitPath (spec : PathSpec) (style : JsAttrs) (column : String)
      (onSelectionChange onHighlightChange : Option Nat)
  | text (x y : ℚ) (dy : Option String) (style : JsAttrs) (content : TextContent)
  | rect (x y w h : ℚ) (style : JsAttrs)
  | valueList (values : List LabelValue) (width : ℚ)

namespace LineChart

/-- The constant hit-target style of `renderPath`. -/
def hitStyle : JsAttrs :=
  [("stroke", .str "white"), ("fill", .str "none"), ("opacity", .num 0),
   ("strokeWidth", .num 7), ("cursor", .str "crosshair"),
   ("pointerEvents", .str "stroke")]

/-- Method `renderPath`: one visible stroke styled by `pathStyle` plus
one invisible hit-target stroke over the same path, grouped under the
numeric `key`.  A style-resolution failure propagates immediately. -/
def renderPath (d : StateStyles) (p : LineChartProps) (data : PointData)
    (column : String) (key : Nat) : Except Unit SvgNode :=
  match pathStyle d p.style p.selection p.highlight "line" column with
  | .error e => .error e
  | .ok st =>
    .ok (.g (some (toString key))
      [.path ⟨p.interpolation, p.timeScale, p.yScale, data⟩ st,
       .hitPath ⟨p.interpolation, p.timeScale, p.yScale, data⟩ hitStyle column
         p.onSelectionChange p.onHighlightChange])

/-- Conversion of the emitted segments of one column into paths, with
the running `count` used as key (starting at 1, as in `renderLine`). -/
def renderSegments (d : StateStyles) (p : LineChartProps) (column : String) :
    List PointData → Nat → Except Unit (List SvgNode)
  | [], _ => .ok []
  | seg :: rest, count =>
    match renderPath d p seg column count with
    | .error e => .error e
    | .ok node =>
      match renderSegments d p column rest (count + 1) with
      | .error e => .error e
      | .ok nodes => .ok (node :: nodes)

/-- Method `renderLine`: the group (keyed by the column) of the paths of
the column's segments. -/
def renderLine (d : StateStyles) (p : LineChartProps) (column : String) :
    Except Unit SvgNode :=
  match renderSegments d p column (lineSegments p.breakLine p.series column) 1 with
  | .error e => .error e
  | .ok children => .ok (.g (some column) children)

/-- Method `renderLines`: map `renderLine` over the columns prop. -/
def renderColumns (d : StateStyles) (p : LineChartProps) :
    List String → Except Unit (List SvgNode)
  | [] => .ok []
  | c :: cs =>
    match renderLine d p c with
    | .error e => .error e
    | .ok node =>
      match renderColumns d p cs with
      | .error e => .error e
      | .ok nodes => .ok (node :: nodes)

/-- Method `render`: a group wrapping the per-column line groups.  As in
`pathStyle`, the default channel style `d` (imported from `./style` in
the source) is passed explicitly. -/
def render (d : StateStyles) (p : LineChartProps) : Except Unit SvgNode :=
  match renderColumns d p p.columns.names with
  | .error e => .error e
  | .ok children => .ok (.g none children)

end LineChart

/-- JavaScript `Math.round`: round half toward positive infinity. -/
def jsRound (q : ℚ) : ℚ :=
  ((⌊q + 1 / 2⌋ : ℤ) : ℚ)

/-- The props record of `LabelAxis`, after `defaultProps` filled absent
optional props (`hideScale := false`, `values := some []`,
`valWidth := 40`, `format := ".2f"`).  `values = none` models a caller
passing an explicitly falsy `values` (such as `null`), which
`defaultProps` does not replace. -/
structure LabelAxisProps where
  label : String
  hideScale : Bool
  values : Option (List LabelValue)
  valWidth : ℚ
  max : ℚ
  min : ℚ
  format : String
  width : ℚ
  height : ℚ

namespace LabelAxis

/-- The text style of the min/max annotations in `renderAxis`. -/
def scaleTextStyle : JsAttrs :=
  [("fontSize", .num 11), ("textAnchor", .str "start"), ("fill", .str "#bdbdbd")]

/-- The text style of the centered title in `render`. -/
def titleTextStyle : JsAttrs :=
  [("fontSize", .num 12), ("textAnchor", .str "middle"), ("fill", .str "#838383")]

/-- Method `renderAxis`: an empty group when `hideScale` is set,
otherwise the formatted `max` at the top (`y = 0`, shifted down by
`1.2em`) and the formatted `min` at the bottom (`y = height`), both at
`x = rectWidth + 3` (3px padding into the value region). -/
def renderAxis (p : LabelAxisProps) : SvgNode :=
  if p.hideScale then .g none []
  else
    .g none
      [.text (p.width - p.valWidth + 3) 0 (some "1.2em") scaleTextStyle
        (.formatted p.format p.max),
       .text (p.width - p.valWidth + 3) p.height none scaleTextStyle
        (.formatted p.format p.min)]

/-- Method `render`: an invisible layout rect, the centered title text
(at `y = max(round(height/4), 10)` when a values list is present —
arrays, including the empty array, are truthy — and at
`y = round(height/2)` otherwise), the translated `ValueList` sub-block,
and the min/max annotations of `renderAxis`. -/
def render (p : LabelAxisProps) : SvgNode :=
  let rectWidth := p.width - p.valWidth
  match p.values with
  | some vs =>
    let labelYPos := max (jsRound (p.height / 4)) 10
    .g none
      [.rect 0 0 rectWidth p.height
        [("fill", .str "none"), ("stroke", .str "none")],
       .text (jsRound (rectWidth / 2)) labelYPos none titleTextStyle (.raw p.label),
       .translateG 0 (labelYPos + 2) [.valueList vs rectWidth],
       renderAxis p]
  | none =>
    let labelYPos := jsRound (p.height / 2)
    .g none
      [.rect 0 0 rectWidth p.height
        [("fill", .str "none"), ("stroke", .str "none")],
       .text (jsRound (rectWidth / 2)) labelYPos none titleTextStyle (.raw p.label),
       .translateG 0 (labelYPos + 2) [],
       renderAxis p]

end LabelAxis

/-- Extractor: the y coordinate of the title text node (the second
child) of a `LabelAxis.render` output. -/
def titleY : SvgNode → Option ℚ
  | .g _ (_ :: .text _ y _ _ _ :: _) => some y
  | _ => none

mutual

/-- Collector: every formatted (d3-format) text node of a node tree, as
an (x, y, format-spec, value) tuple, in document order.  Raw text nodes
(such as the axis title) are not collected. -/
def formattedTexts : SvgNode → List (ℚ × ℚ × String × ℚ)
  | .text x y _ _ (.formatted spec v) => [(x, y, spec, v)]
  | .text _ _ _ _ (.raw _) => []
  | .g _ cs => formattedTextsList cs
  | .translateG _ _ cs => formattedTextsList cs
  | .path _ _ => []
  | .hitPath _ _ _ _ _ => []
  | .rect _ _ _ _ _ => []
  | .valueList _ _ => []

/-- List version of `formattedTexts`. -/
def formattedTextsList : List SvgNode → List (ℚ × ℚ × String × ℚ)
  | [] => []
  | n :: ns => formattedTexts n ++ formattedTextsList ns

end

/-- A concrete props record (used only to instantiate witnesses). -/
def sampleProps : LineChartProps :=
  ⟨800, twoGoodSeries, ⟨0, "t0"⟩, 0, .curveLinear, none, none, ⟨0, ["value"]⟩,
    some (.mapping [("value", sampleChannel)]), true, true, "y", none, none⟩

/-- The same props with a series of a different size (for the C5
witness). -/
def samplePropsBiggerSeries : LineChartProps :=
  ⟨800, exampleSeries, ⟨0, "t0"⟩, 0, .curveLinear, none, none, ⟨0, ["value"]⟩,
    some (.mapping [("value", sampleChannel)]), true, true, "y", none, none⟩

-- ### Theorems

theorem chunksAtNone_ne_nil (l : List (Option Point)) : chunksAtNone l ≠ [] := by
  match l with
  | [] => simp [chunksAtNone]
  | none :: rest => simp [chunksAtNone]
  | some p :: rest =>
    simp only [chunksAtNone]
    cases chunksAtNone rest with
    | nil => simp
    | cons c cs => simp

theorem segmentsBreakGo_spec (column : String) :
    ∀ (l : List Event) (acc : List PointData) (cur : Option PointData),
      LineChart.segmentsBreakGo column l acc cur =
        acc ++ (prependCur cur (chunksAtNone (l.map (goodPoint? column)))).filter
          (fun c => decide (1 < c.length)) := by
  intro l
  induction l with
  | nil =>
    intro acc cur
    cases cur with
    | none => simp [LineChart.segmentsBreakGo, chunksAtNone, prependCur]
    | some ps =>
      simp only [LineChart.segmentsBreakGo, List.map_nil, chunksAtNone, prependCur,
        List.append_nil, List.filter]
      by_cases h : 1 < ps.length
      · simp [h]
      · simp [h]
  | cons e rest ih =>
    intro acc cur
    by_cases hb : badPoint (e.get column) = true
    · have hg : goodPoint? column e = none := by simp [goodPoint?, hb]
      cases cur with
      | none =>
        simp only [LineChart.segmentsBreakGo, hb, if_true, List.map_cons, hg, chunksAtNone,
          prependCur]
        rw [ih]
        simp [prependCur, List.filter]
      | some ps =>
        simp only [LineChart.segmentsBreakGo, hb, if_true, List.map_cons, hg, chunksAtNone,
          prependCur]
        rw [ih]
        simp only [prependCur, List.filter, List.append_nil]
        by_cases h : 1 < ps.length
        · simp [h, List.append_assoc]
        · simp [h]
    · have hb' : badPoint (e.get column) = false := by
        cases h : badPoint (e.get column) with
        | true => exact absurd h hb
        | false => rfl
      have hg : goodPoint? column e = some ⟨e.midpoint, (e.get column).asNum⟩ := by
        simp [goodPoint?, hb']
      simp only [LineChart.segmentsBreakGo, hb', Bool.false_eq_true, if_false, List.map_cons, hg]
      rw [ih]
      obtain ⟨c, cs, hc⟩ : ∃ c cs, chunksAtNone (rest.map (goodPoint? column)) = c :: cs := by
        cases h : chunksAtNone (rest.map (goodPoint? column)) with
        | nil => exact absurd h (chunksAtNone_ne_nil _)
        | cons c cs => exact ⟨c, cs, rfl⟩
      cases cur with
      | none =>
        simp [chunksAtNone, hc, prependCur, Event.midpoint]
      | some ps =>
        simp [chunksAtNone, hc, prependCur, Event.midpoint, List.append_assoc]

theorem segmentsBreakLine_spec (events : List Event) (column : String) :
    LineChart.segmentsBreakLine events column =
      (chunksAtNone (events.map (goodPoint? column))).filter
        (fun c => decide (2 ≤ c.length)) := by
  rw [LineChart.segmentsBreakLine, segmentsBreakGo_spec]
  rfl

theorem segmentsNoBreakGo (column : String) :
    ∀ (l : List Event) (acc : PointData),
      l.foldl
        (fun cleanedPoints e =>
          let timestamp := e.beginT + (e.endT - e.beginT) / 2
          let value := e.get column
          if badPoint value then cleanedPoints
          else cleanedPoints ++ [⟨timestamp, value.asNum⟩])
        acc = acc ++ l.filterMap (goodPoint? column) := by
  intro l
  induction l with
  | nil => intro acc; simp
  | cons e rest ih =>
    intro acc
    by_cases hb : badPoint (e.get column) = true
    · have hg : goodPoint? column e = none := by simp [goodPoint?, hb]
      simp only [List.foldl_cons, hb, if_true, List.filterMap_cons, hg]
      exact ih acc
    · have hb' : badPoint (e.get column) = false := by
        cases h : badPoint (e.get column) with
        | true => exact absurd h hb
        | false => rfl
      have hg : goodPoint? column e = some ⟨e.midpoint, (e.get column).asNum⟩ := by
        simp [goodPoint?, hb']
      simp only [List.foldl_cons, hb', Bool.false_eq_true, if_false, List.filterMap_cons, hg]
      rw [ih]
      simp [Event.midpoint, List.append_assoc]

theorem segmentsNoBreakLine_spec (events : List Event) (column : String) :
    LineChart.segmentsNoBreakLine events column =
      [events.filterMap (goodPoint? column)] := by
  rw [LineChart.segmentsNoBreakLine, segmentsNoBreakGo]
  rfl

theorem chunksAtNone_all_some (l : List (Option Point))
    (h : ∀ x ∈ l, x.isSome = true) : chunksAtNone l = [l.filterMap id] := by
  induction l with
  | nil => simp [chunksAtNone]
  | cons x rest ih =>
    cases x with
    | none => simp at h
    | some p =>
      have h' : ∀ y ∈ rest, y.isSome = true := fun y hy => h y (List.mem_cons_of_mem _ hy)
      simp only [chunksAtNone, ih h', List.filterMap_cons, id]

theorem length_filterMap_goodPoint (events : List Event) (column : String)
    (h : ∀ e ∈ events, badPoint (e.get column) = false) :
    (events.filterMap (goodPoint? column)).length = events.length := by
  induction events with
  | nil => simp
  | cons e rest ih =>
    have he : badPoint (e.get column) = false := h e (List.mem_cons_self _ _)
    have h' : ∀ x ∈ rest, badPoint (x.get column) = false :=
      fun x hx => h x (List.mem_cons_of_mem _ hx)
    simp [List.filterMap_cons, goodPoint?, he, ih h']

/-- C1: `renderLine` implements the spec's segmentation algorithm.  For
every series and column, with `breakLine = true` it emits exactly the
maximal runs of consecutive good points that have at least 2 points
(runs of length 0 or 1, including the final open run, are dropped), and
with `breakLine = false` it emits exactly one segment holding all good
points of the series in order, even when that segment has 0 or 1 points.
In particular, for the series `[1, 2, bad, 4, 5]` on one column,
`breakLine = true` yields the two segments `[1,2]` and `[4,5]`, and
`breakLine = false` yields the single segment `[1,2,4,5]`. -/
theorem renderLine_segmentation_correct :
    (∀ (series : TimeSeries) (column : String),
      LineChart.lineSegments true series column =
        (chunksAtNone (series.events.map (goodPoint? column))).filter
          (fun c => decide (2 ≤ c.length)) ∧
      LineChart.lineSegments false series column =
        [series.events.filterMap (goodPoint? column)]) ∧
    LineChart.lineSegments true exampleSeries "value" =
      [[⟨0, 1⟩, ⟨1, 2⟩], [⟨3, 4⟩, ⟨4, 5⟩]] ∧
    LineChart.lineSegments false exampleSeries "value" =
      [[⟨0, 1⟩, ⟨1, 2⟩, ⟨3, 4⟩, ⟨4, 5⟩]] := by
  refine ⟨fun series column => ⟨?_, ?_⟩, ?_, ?_⟩
  · simp [LineChart.lineSegments, segmentsBreakLine_spec]
  · simp [LineChart.lineSegments, segmentsNoBreakLine_spec]
  · norm_num [exampleSeries, LineChart.lineSegments, LineChart.segmentsBreakLine,
      LineChart.segmentsBreakGo, Event.get, List.lookup, badPoint,
      Lodash.isNull, Lodash.isNaN, Lodash.isFinite, JsVal.asNum]
  · norm_num [exampleSeries, LineChart.lineSegments, LineChart.segmentsNoBreakLine,
      Event.get, List.lookup, badPoint,
      Lodash.isNull, Lodash.isNaN, Lodash.isFinite, JsVal.asNum]

/-- C4 counterexample: on the empty series (which trivially has no bad
values), `breakLine = true` emits zero segments while
`breakLine = false` emits one empty segment, so the two modes do not
agree on all bad-value-free series of size 0 or 1. -/
theorem breakLine_equivalence_cex :
    LineChart.lineSegments true ⟨[]⟩ "value" = [] ∧
    LineChart.lineSegments false ⟨[]⟩ "value" = [[]] ∧
    LineChart.lineSegments true ⟨[]⟩ "value" ≠
      LineChart.lineSegments false ⟨[]⟩ "value" := by
  decide

/-- C4 (amended): for every series with no bad values in the requested
column and at least 2 events, `breakLine = true` and
`breakLine = false` produce the same single segment, namely all points
of the series in order.  (For series of size 0 or 1, `breakLine = true`
emits no segment while `breakLine = false` emits one degenerate
segment, so the original unrestricted claim fails.) -/
theorem breakLine_noBadValues_equiv (series : TimeSeries) (column : String)
    (hgood : ∀ e ∈ series.events, badPoint (e.get column) = false)
    (hlen : 2 ≤ series.events.length) :
    LineChart.lineSegments true series column =
      LineChart.lineSegments false series column ∧
    LineChart.lineSegments false series column =
      [series.events.filterMap (goodPoint? column)] := by
  have hsome : ∀ x ∈ series.events.map (goodPoint? column), x.isSome = true := by
    intro x hx
    obtain ⟨e, he, rfl⟩ := List.mem_map.mp hx
    simp [goodPoint?, hgood e he]
  have hfm : (series.events.map (goodPoint? column)).filterMap id =
      series.events.filterMap (goodPoint? column) := by
    simp [List.filterMap_map]
  have hchunks := chunksAtNone_all_some _ hsome
  have hlength : (series.events.filterMap (goodPoint? column)).length =
      series.events.length := length_filterMap_goodPoint _ _ hgood
  constructor
  · simp only [LineChart.lineSegments, if_true, Bool.false_eq_true, if_false,
      segmentsBreakLine_spec, segmentsNoBreakLine_spec, hchunks, hfm]
    have : decide (2 ≤ (series.events.filterMap (goodPoint? column)).length) = true := by
      simp [hlength]; omega
    simp [List.filter, this]
  · simp [LineChart.lineSegments, segmentsNoBreakLine_spec]

theorem breakLine_noBadValues_equiv_witness :
    twoGoodSeries.events.all (fun e => !badPoint (e.get "value")) = true ∧
    2 ≤ twoGoodSeries.events.length ∧
    LineChart.lineSegments true twoGoodSeries "value" =
      LineChart.lineSegments false twoGoodSeries "value" :=
  ⟨by decide, by decide,
    (breakLine_noBadValues_equiv twoGoodSeries "value" (by decide) (by decide)).1⟩

/-- C2: `pathStyle` resolves the style state by the precedence
selected, then highlighted, then muted whenever a selection exists (the
selected column gets `selected`, a highlighted non-selected column gets
`highlighted`, every other column gets `muted`), and by highlighted
over normal when no selection exists; a column resolves to `muted` only
when some other column (not itself) is selected.  Following the
source's `if (this.props.selection)` test, "a selection exists" means
the selection prop is truthy (set to a non-empty column name).  The
last conjunct ties the resolved state to `pathStyle`'s output bundle
for any resolvable style source. -/
theorem pathStyle_state_precedence (sel hl : Option String) (col : String) :
    (LineChart.styleState sel hl col =
      (if truthy sel then
        if sel = some col then StyleState.selected
        else if truthy hl = true ∧ hl = some col then StyleState.highlighted
        else StyleState.muted
      else if truthy hl = true ∧ hl = some col then StyleState.highlighted
      else StyleState.normal)) ∧
    (LineChart.styleState sel hl col = StyleState.muted →
      ∃ c, sel = some c ∧ c ≠ col) ∧
    (∀ (d : StateStyles) (style : Option StyleSource)
        (styleMap : LineChartChannelStyle) (element : String),
      LineChart.providedPathStyleMap style col = some styleMap →
      LineChart.pathStyle d style sel hl element col =
        .ok (setAttr
          (LineChart.pickedBundle d (LineChart.subStyle styleMap element)
            (LineChart.styleState sel hl col))
          "pointerEvents" (.str "none"))) := by
  have hH : (truthy hl && decide (hl = some col)) =
      decide (truthy hl = true ∧ hl = some col) := by
    cases h : truthy hl <;> simp [h]
  have hS : (truthy sel && decide (sel = some col)) =
      decide (truthy sel = true ∧ sel = some col) := by
    cases h : truthy sel <;> simp [h]
  refine ⟨?_, ?_, ?_⟩
  · simp only [LineChart.styleState, hH, hS]
    by_cases hs : truthy sel = true
    · by_cases hsel : sel = some col
      · subst hsel
        simp [hs]
      · have hns : ¬(truthy sel = true ∧ sel = some col) := fun hc => hsel hc.2
        by_cases hhl : truthy hl = true ∧ hl = some col
        · simp [hs, hsel, hns, hhl]
        · simp [hs, hsel, hns, hhl]
    · have hs' : truthy sel = false := by
        cases h : truthy sel with
        | true => exact absurd h hs
        | false => rfl
      by_cases hhl : truthy hl = true ∧ hl = some col
      · simp [hs', hhl]
      · simp [hs', hhl]
  · intro hm
    by_cases hs : truthy sel = true
    · cases hsel : sel with
      | none => rw [hsel] at hs; simp [truthy] at hs
      | some c =>
        refine ⟨c, rfl, ?_⟩
        intro hc
        rw [hsel, hc] at hm
        have : truthy (some col) = true := by rw [← hc, ← hsel]; exact hs
        simp [LineChart.styleState, this] at hm
    · have hs' : truthy sel = false := by
        cases h : truthy sel with
        | true => exact absurd h hs
        | false => rfl
      rw [LineChart.styleState] at hm
      simp only [hs', Bool.false_eq_true, if_false] at hm
      cases h : (truthy hl && decide (hl = some col)) <;> simp [h] at hm
  · intro d style styleMap element hmap
    simp [LineChart.pathStyle, hmap]

theorem pathStyle_state_precedence_witness :
    LineChart.styleState (some "b") none "a" = StyleState.muted ∧
    (∃ c, (some "b" : Option String) = some c ∧ c ≠ "a") ∧
    LineChart.pathStyle sampleStates
        (some (StyleSource.mapping [("a", sampleChannel)])) (some "b") none
        "line" "a" =
      .ok (setAttr
        (LineChart.pickedBundle sampleStates
          (LineChart.subStyle sampleChannel "line")
          (LineChart.styleState (some "b") none "a"))
        "pointerEvents" (.str "none")) := by
  refine ⟨by decide,
    (pathStyle_state_precedence (some "b") none "a").2.1 (by decide),
    (pathStyle_state_precedence (some "b") none "a").2.2 sampleStates
      (some (StyleSource.mapping [("a", sampleChannel)])) sampleChannel "line"
      (by decide)⟩

/-- C3 counterexample: with `selection = "b"` and `highlight = "a"`,
column `"a"` resolves to the `highlighted` state, not the `muted` state
the claim asserts for every non-selected column. -/
theorem selection_muted_claim_cex :
    LineChart.styleState (some "b") (some "a") "a" = StyleState.highlighted ∧
    LineChart.styleState (some "b") (some "a") "a" ≠ StyleState.muted := by
  decide

/-- C3 (amended): when `selection = "b"`, column `"b"` resolves to
`selected` and every other column resolves to `muted`, except that a
non-selected column equal to the (truthy) highlight resolves to
`highlighted`; when there is no selection and `highlight = "a"`, column
`"a"` resolves to `highlighted` and every other column to `normal`. -/
theorem selection_b_highlight_a_states (col : String) (hl : Option String) :
    (col = "b" → LineChart.styleState (some "b") hl col = StyleState.selected) ∧
    (col ≠ "b" → hl = some col → col ≠ "" →
      LineChart.styleState (some "b") hl col = StyleState.highlighted) ∧
    (col ≠ "b" → (hl ≠ some col ∨ col = "") →
      LineChart.styleState (some "b") hl col = StyleState.muted) ∧
    (LineChart.styleState none (some "a") col =
      if col = "a" then StyleState.highlighted else StyleState.normal) := by
  have htb : truthy (some "b") = true := by decide
  refine ⟨?_, ?_, ?_, ?_⟩
  · intro h
    subst h
    simp [LineChart.styleState, htb]
  · intro hne hhl hce
    subst hhl
    have hth : truthy (some col) = true := by simp [truthy, hce]
    have : ¬(some "b" : Option String) = some col := by
      intro hc
      exact hne (Option.some.inj hc).symm
    simp [LineChart.styleState, htb, hth, this]
  · intro hne hor
    have hsel : ¬(some "b" : Option String) = some col := by
      intro hc
      exact hne (Option.some.inj hc).symm
    have hH : (truthy hl && decide (hl = some col)) = false := by
      cases hor with
      | inl h => simp [h]
      | inr h =>
        subst h
        cases hhl : hl with
        | none => simp [truthy]
        | some s =>
          by_cases hse : s = ""
          · simp [truthy, hse]
          · have hneq : ¬(some s : Option String) = some "" := by
              intro hc
              exact hse (Option.some.inj hc)
            simp [hneq]
    simp [LineChart.styleState, htb, hsel, hH]
  · have hta : truthy (some "a") = true := by decide
    by_cases h : col = "a"
    · subst h
      simp [LineChart.styleState, truthy, hta]
    · have : ¬(some "a" : Option String) = some col := by
        intro hc
        exact h (Option.some.inj hc).symm
      simp [LineChart.styleState, truthy, this, h]

theorem selection_b_highlight_a_states_witness :
    LineChart.styleState (some "b") (some "a") "b" = StyleState.selected ∧
    LineChart.styleState (some "b") (some "a") "a" = StyleState.highlighted ∧
    LineChart.styleState (some "b") none "c" = StyleState.muted ∧
    LineChart.styleState none (some "a") "a" = StyleState.highlighted := by
  refine ⟨(selection_b_highlight_a_states "b" (some "a")).1 rfl,
    (selection_b_highlight_a_states "a" (some "a")).2.1 (by decide) rfl (by decide),
    (selection_b_highlight_a_states "c" none).2.2.1 (by decide) (Or.inl (by decide)),
    ?_⟩
  have h := (selection_b_highlight_a_states "a" none).2.2.2
  simpa using h

/-- C5: `shouldComponentUpdate` returns `false` when all tracked props
— pixel width, series (size first, then structural equality), time
scale (compared as strings), value scale (by identity), interpolation,
highlight, selection and columns (by identity) — are unchanged between
previous and next props, and returns `true` whenever the series sizes
differ, even if every other prop is identical. -/
theorem shouldComponentUpdate_tracked (p q : LineChartProps) :
    (p.width = q.width →
     p.series = q.series →
     scaleAsString p.timeScale = scaleAsString q.timeScale →
     p.yScale = q.yScale →
     p.interpolation = q.interpolation →
     p.highlight = q.highlight →
     p.selection = q.selection →
     p.columns.ref = q.columns.ref →
     LineChart.shouldComponentUpdate p q = false) ∧
    (p.series.size ≠ q.series.size →
     LineChart.shouldComponentUpdate p q = true) := by
  constructor
  · intro h1 h2 h3 h4 h5 h6 h7 h8
    simp [LineChart.shouldComponentUpdate, h1, h2, h3, h4, h5, h6, h7, h8,
      TimeSeries.is]
  · intro hs
    simp [LineChart.shouldComponentUpdate, hs]

theorem shouldComponentUpdate_tracked_witness :
    LineChart.shouldComponentUpdate sampleProps sampleProps = false ∧
    sampleProps.series.size ≠ samplePropsBiggerSeries.series.size ∧
    LineChart.shouldComponentUpdate sampleProps samplePropsBiggerSeries = true :=
  ⟨(shouldComponentUpdate_tracked sampleProps sampleProps).1
      rfl rfl rfl rfl rfl rfl rfl rfl,
    by decide,
    (shouldComponentUpdate_tracked sampleProps samplePropsBiggerSeries).2
      (by decide)⟩

/-- C9: `shouldComponentUpdate` ignores every prop outside the tracked
set: changing only style, breakLine, visible, axis, or the selection /
highlight callbacks never triggers a re-render, even though style and
breakLine do change the rendered output. -/
theorem shouldComponentUpdate_untracked (p : LineChartProps)
    (st : Option StyleSource) (bl vis : Bool) (ax : String)
    (cbSel cbHl : Option Nat) :
    LineChart.shouldComponentUpdate p
      { p with style := st, breakLine := bl, visible := vis, axis := ax,
               onSelectionChange := cbSel, onHighlightChange := cbHl } = false := by
  simp [LineChart.shouldComponentUpdate, TimeSeries.is]

/-- C6: when the style source resolves to `undefined` for the requested
column — an absent style prop, a static mapping missing the column, or
a style function returning `undefined` — `pathStyle` fails immediately
with the attribute-access error (never an `.ok` default style), and
`renderPath` propagates exactly that failure with no recovery or
fallback. -/
theorem pathStyle_undefined_fails (d : StateStyles) (style : Option StyleSource)
    (sel hl : Option String) (element col : String) :
    (LineChart.pathStyle d style sel hl element col = .error () ↔
      LineChart.providedPathStyleMap style col = none) ∧
    (∀ m, m.lookup col = none →
      LineChart.providedPathStyleMap (some (StyleSource.mapping m)) col = none) ∧
    (∀ f, f col = none →
      LineChart.providedPathStyleMap (some (StyleSource.fn f)) col = none) ∧
    (∀ (p : LineChartProps) (data : PointData) (key : Nat),
      p.style = style → p.selection = sel → p.highlight = hl →
      (LineChart.renderPath d p data col key = .error () ↔
        LineChart.pathStyle d style sel hl "line" col = .error ())) := by
  refine ⟨?_, ?_, ?_, ?_⟩
  · cases h : LineChart.providedPathStyleMap style col <;>
      simp [LineChart.pathStyle, h]
  · intro m hm
    simp [LineChart.providedPathStyleMap, hm]
  · intro f hf
    simp [LineChart.providedPathStyleMap, hf]
  · intro p data key h1 h2 h3
    rw [← h1, ← h2, ← h3]
    cases h : LineChart.pathStyle d p.style p.selection p.highlight "line" col <;>
      simp [LineChart.renderPath, h]

theorem pathStyle_undefined_fails_witness :
    LineChart.providedPathStyleMap (some (StyleSource.mapping [])) "a" = none ∧
    LineChart.pathStyle sampleStates (some (StyleSource.mapping [])) none none
      "line" "a" = .error () := by
  have h := pathStyle_undefined_fails sampleStates (some (StyleSource.mapping []))
    none none "line" "a"
  exact ⟨h.2.1 [] rfl, h.1.mpr (h.2.1 [] rfl)⟩

/-- C10: the output of `LineChart.render` is independent of the
`visible` prop: for any two props records identical except for
`visible`, render produces the same node tree — the prop is declared
and defaulted but never read by any rendering path. -/
theorem render_independent_of_visible (d : StateStyles) (p : LineChartProps)
    (v : Bool) :
    LineChart.render d { p with visible := v } = LineChart.render d p := by
  have hpath : ∀ (data : PointData) (col : String) (key : Nat),
      LineChart.renderPath d { p with visible := v } data col key =
        LineChart.renderPath d p data col key := fun _ _ _ => rfl
  have hsegs : ∀ (col : String) (segs : List PointData) (n : Nat),
      LineChart.renderSegments d { p with visible := v } col segs n =
        LineChart.renderSegments d p col segs n := by
    intro col segs
    induction segs with
    | nil => intro n; rfl
    | cons s rest ih =>
      intro n
      simp only [LineChart.renderSegments, hpath, ih]
  have hline : ∀ col : String,
      LineChart.renderLine d { p with visible := v } col =
        LineChart.renderLine d p col := by
    intro col
    simp only [LineChart.renderLine, hsegs]
  have hcols : ∀ cs : List String,
      LineChart.renderColumns d { p with visible := v } cs =
        LineChart.renderColumns d p cs := by
    intro cs
    induction cs with
    | nil => rfl
    | cons c rest ih => simp only [LineChart.renderColumns, hline, ih]
  simp only [LineChart.render, hcols]

/-- C7: the title's vertical position in `LabelAxis.render` is
`max(round(height/4), 10)` when auxiliary values are given (even the
empty list — a JS array is truthy) and `round(height/2)` when no
values list is given (an explicitly falsy `values`), for every height
and every values input. -/
theorem labelAxis_titleY (p : LabelAxisProps) :
    titleY (LabelAxis.render p) =
      some (match p.values with
        | some _ => max (jsRound (p.height / 4)) 10
        | none => jsRound (p.height / 2)) := by
  cases h : p.values <;> simp [LabelAxis.render, h, titleY]

/-- C8: with `hideScale = true`, `LabelAxis` renders no formatted
min/max text nodes at all; with `hideScale = false` it renders exactly
two — the formatted max at the top (`y = 0`) and the formatted min at
the bottom (`y = height`) of the value region
(`x = width - valWidth + 3`) — for every min, max, width and height. -/
theorem labelAxis_scale_annotations (p : LabelAxisProps) :
    (p.hideScale = true → formattedTexts (LabelAxis.render p) = []) ∧
    (p.hideScale = false →
      formattedTexts (LabelAxis.render p) =
        [(p.width - p.valWidth + 3, 0, p.format, p.max),
         (p.width - p.valWidth + 3, p.height, p.format, p.min)]) := by
  constructor <;> intro h <;>
    cases hv : p.values <;>
      simp [LabelAxis.render, LabelAxis.renderAxis, h, hv, formattedTexts,
        formattedTextsList]

theorem labelAxis_scale_annotations_witness :
    formattedTexts
        (LabelAxis.render ⟨"t", true, some [], 40, 100, 0, ".2f", 200, 40⟩) = [] ∧
    formattedTexts
        (LabelAxis.render ⟨"t", false, some [], 40, 100, 0, ".2f", 200, 40⟩) =
      [((200 : ℚ) - 40 + 3, 0, ".2f", 100), ((200 : ℚ) - 40 + 3, 40, ".2f", 0)] :=
  ⟨(labelAxis_scale_annotations ⟨"t", true, some [], 40, 100, 0, ".2f", 200, 40⟩).1
      rfl,
    (labelAxis_scale_annotations ⟨"t", false, some [], 40, 100, 0, ".2f", 200, 40⟩).2
      rfl⟩
